import Mathlib

/-!
Shallow embedding of the hummingbird conversion pipeline
(`hummingbird/ml/convert.py` and
`hummingbird/ml/operator_converters/onnxml_linear.py`).

Values that are `numpy` float32 arrays in the source are modelled as lists
of rationals: every transformation performed by the embedded code is a pure
rearrangement (slicing, reshaping, transposing) that never computes with the
scalars, so the carrier of the scalars is irrelevant to the statements proved
here.
-/

namespace Hummingbird

/-- One ONNX `AttributeProto` as the linear-model converter reads it:
a name plus the `floats`, `ints`, `i` and `strings` payload fields
(protobuf fields default to empty / zero). -/
structure AttributeProto where
  name : String
  floats : List ℚ
  ints : List Int
  i : Int
  strings : List String
deriving Repr, DecidableEq

/-- The raw ONNX node backing the operator: `operator.origin.attribute`. -/
structure OriginNode where
  attrs : List AttributeProto
deriving Repr, DecidableEq

/-- `operator.raw_operator`: the wrapped ONNX-ML operator with its origin
node and its operator type string (`op_type`). -/
structure RawOperator where
  origin : OriginNode
  op_type : String
deriving Repr, DecidableEq

/-- The IR node handed to a converter; it wraps the raw source operator. -/
structure Operator where
  raw_operator : RawOperator
deriving Repr, DecidableEq

/-- State of the attribute walk at the top of `convert_onnx_linear_model`:
`coefficients = intercepts = classes = multi_class = None` initially, each
assigned when an attribute of the matching name is seen. -/
structure ParsedAttrs where
  coefficients : Option (List ℚ)
  intercepts : Option (List ℚ)
  classes : Option (List Int)
  multi_class : Option String
deriving Repr, DecidableEq

/-- One iteration of the `for attr in operator.origin.attribute` loop in
`convert_onnx_linear_model`: dispatch on the attribute name; a
`multi_class` attribute sets the mode to "multinomial" only when its
integer payload is non-zero. -/
def parseStep (s : ParsedAttrs) (a : AttributeProto) : ParsedAttrs :=
  if a.name = "coefficients" then
    ⟨some a.floats, s.intercepts, s.classes, s.multi_class⟩
  else if a.name = "intercepts" then
    ⟨s.coefficients, some a.floats, s.classes, s.multi_class⟩
  else if a.name = "classlabels_ints" then
    ⟨s.coefficients, s.intercepts, some a.ints, s.multi_class⟩
  else if a.name = "multi_class" then
    if a.i ≠ 0 then ⟨s.coefficients, s.intercepts, s.classes, some "multinomial"⟩ else s
  else s

/-- The whole attribute walk of `convert_onnx_linear_model`. -/
def parseAttrs (attrs : List AttributeProto) : ParsedAttrs :=
  attrs.foldl parseStep ⟨none, none, none, none⟩

/-- A numpy array as the converter produces it: either still a flat
1-D array or a 2-D array (list of rows). -/
inductive Tensor
  | vec (xs : List ℚ)
  | mat (xss : List (List ℚ))
deriving Repr, DecidableEq

/-- The `LinearModel` fragment returned by the converter, carrying the
reshaped parameters and the classification metadata. -/
structure LinearModel where
  coefficients : Tensor
  intercepts : Tensor
  device : Option String
  classes : List Int
  multi_class : String
  is_linear_regression : Bool
deriving Repr, DecidableEq

/-- The `RuntimeError`s `convert_onnx_linear_model` can raise (plus the
numpy `ValueError` of an impossible `reshape`). -/
inductive LinearError
  | unexpectedNone
  | unexpectedClassesLength (n : Nat)
  | cannotReshape
deriving Repr, DecidableEq

/-- `multi_class = "none" if len(classes) < 3 else "ovr"` when the
attribute walk left the mode unset, otherwise the walked value. -/
def resolveMultiClass (walked : Option String) (classes : List Int) : String :=
  match walked with
  | some m => m
  | none => if classes.length < 3 then "none" else "ovr"

/-- Binary reshape: `[[val] for val in xs[len(xs) // 2 :]]` — keep the
second half and turn every scalar into a one-element row. -/
def binaryHalf (xs : List ℚ) : List (List ℚ) :=
  (xs.drop (xs.length / 2)).map (fun v => [v])

/-- `xs.reshape(c, m)` for a flat array (the caller guards
`c * m = xs.length`): row `i` is `xs[i*m : i*m + m]`. -/
def reshapeRows (c m : Nat) (xs : List ℚ) : List (List ℚ) :=
  (List.range c).map (fun i => (xs.drop (i * m)).take m)

/-- Length of Python's `zip(*rows)` output: the minimum row length
(zero when there are no rows). -/
def minRowLen (rows : List (List ℚ)) : Nat :=
  match rows.map (fun r => r.length) with
  | [] => 0
  | l :: ls => ls.foldl Nat.min l

/-- `np.array(list(zip(*rows)))`: output row `j` collects element `j`
of every input row. -/
def zipRows (rows : List (List ℚ)) : List (List ℚ) :=
  (List.range (minRowLen rows)).map (fun j => rows.map (fun r => r.getD j 0))

/-- `convert_onnx_linear_model(operator, device, extra_config)` from
`onnxml_linear.py`: walk the attributes, fail on a missing
coefficients/intercepts/classes attribute, resolve the multi-class mode,
then reshape — second half as single-scalar rows for exactly 2 classes,
reshape-and-transpose for more than 2 classes, error otherwise. -/
def convert_onnx_linear_model (operator : Operator) (device : Option String)
    (extra_config : List (String × String)) : Except LinearError LinearModel :=
  let op := operator.raw_operator
  let s := parseAttrs op.origin.attrs
  match s.coefficients, s.intercepts, s.classes with
  | some coefficients, some intercepts, some classes =>
    let multi_class := resolveMultiClass s.multi_class classes
    let is_linear_regression := op.op_type == "LinearRegressor"
    if classes.length = 2 then
      .ok ⟨.mat (binaryHalf coefficients), .mat (binaryHalf intercepts),
           device, classes, multi_class, is_linear_regression⟩
    else if 2 < classes.length then
      let m := coefficients.length / classes.length
      if classes.length * m ≠ coefficients.length then .error .cannotReshape
      else
        let tmp := reshapeRows classes.length m coefficients
        .ok ⟨.mat (zipRows tmp), .vec intercepts,
             device, classes, multi_class, is_linear_regression⟩
    else .error (.unexpectedClassesLength classes.length)
  | _, _, _ => .error .unexpectedNone

/-! ## `convert.py`: the XGBoost entry point -/

/-- `constants.N_FEATURES`, the feature-count key of `extra_config`. -/
def N_FEATURES : String := "n_features"

/-- The `extra_config` mapping, modelled as an association list keyed by
strings (values restricted to the naturals the embedded code stores). -/
abbrev Config := List (String × Nat)

/-- Python `key in extra_config`. -/
def containsKey (cfg : Config) (k : String) : Bool :=
  cfg.any (fun p => p.1 == k)

/-- Python `extra_config[key]` read (first binding wins, as for a dict
in which each key is inserted at most once). -/
def lookupConfig (cfg : Config) (k : String) : Option Nat :=
  match cfg with
  | [] => none
  | p :: rest => if p.1 = k then some p.2 else lookupConfig rest k

/-- Python `extra_config[key] = value` for an absent key: the dict gains
one binding. -/
def insertConfig (cfg : Config) (k : String) (v : Nat) : Config :=
  cfg ++ [(k, v)]

/-- The XGBoost model as `convert_xgboost` interrogates it:
`model._features_count` when `"_features_count" in dir(model)`. -/
structure XGBoostModel where
  features_count : Option Nat
deriving Repr, DecidableEq

/-- The `test_input` argument: `None`, a numpy `ndarray` of some shape,
or any other non-`None` object. -/
inductive TestInput
  | noInput
  | ndarray (shape : List Nat)
  | otherData
deriving Repr, DecidableEq

/-- The two `RuntimeError`s of `convert_xgboost`'s feature-count
inference. -/
inductive XGBError
  | notNdarray
  | noTestInput
deriving Repr, DecidableEq

/-- Observable outcome of a `convert_xgboost` call: the caller's
`extra_config` dict after the call (it is mutated in place), and the
error raised before any model was produced, if any (`none` means the
call went on to `convert_sklearn`). -/
structure XGBOutcome where
  extra_config : Config
  error : Option XGBError
deriving Repr, DecidableEq

/-- `convert_xgboost(model, test_input, extra_config)` from `convert.py`:
when `n_features` is absent from `extra_config`, fill it from the model's
own feature count, else from a 2-D ndarray `test_input`'s second
dimension, else raise. -/
def convert_xgboost (model : XGBoostModel) (test_input : TestInput)
    (extra_config : Config) : XGBOutcome :=
  if containsKey extra_config N_FEATURES then
    ⟨extra_config, none⟩
  else
    match model.features_count with
    | some n => ⟨insertConfig extra_config N_FEATURES n, none⟩
    | none =>
      match test_input with
      | .ndarray shape =>
        if shape.length = 2 then
          ⟨insertConfig extra_config N_FEATURES (shape.getD 1 0), none⟩
        else ⟨extra_config, some .notNdarray⟩
      | .otherData => ⟨extra_config, some .notNdarray⟩
      | .noInput => ⟨extra_config, some .noTestInput⟩

/-- The feature count `convert_xgboost` should settle on, by the priority
order of the code: an existing `n_features` entry, then the model's own
count, then the second dimension of a 2-D ndarray `test_input`. -/
def featureSource (model : XGBoostModel) (test_input : TestInput)
    (extra_config : Config) : Option Nat :=
  match lookupConfig extra_config N_FEATURES with
  | some n => some n
  | none =>
    match model.features_count with
    | some n => some n
    | none =>
      match test_input with
      | .ndarray shape => if shape.length = 2 then some (shape.getD 1 0) else none
      | _ => none

/-! ## `convert.py`: the ONNX-ML entry point -/

/-- A declared graph input of the ONNX model (`model.input` entry). -/
structure ModelInput where
  name : String
deriving Repr, DecidableEq

/-- The tensor element types `convert_onnxml` can be asked to synthesize
test data for; everything other than float32 / int32 is unsupported. -/
inductive ElemType
  | float32
  | int32
  | other (tag : String)
deriving Repr, DecidableEq

/-- One `initial_types` entry: an input name paired with a tensor type
carrying an element type and an optional shape. -/
structure InitialType where
  name : String
  ty : ElemType
  shape : Option (List Nat)
deriving Repr, DecidableEq

/-- The ONNX-ML model as far as the embedded prefix of `convert_onnxml`
reads it: declared inputs and declared output names. -/
structure OnnxModel where
  input : List ModelInput
  output : List String
deriving Repr, DecidableEq

/-- The test data `convert_onnxml` hands to the IR conversion: either the
caller's own data or a synthesized random array of a dtype and shape. -/
inductive TestDataD
  | given
  | synth (ty : ElemType) (shape : List Nat)
deriving Repr, DecidableEq

/-- The assertion / `RuntimeError` failures of `convert_onnxml`'s
embedded prefix, in the order the code checks them. -/
inductive OnnxmlError
  | missingTestInput
  | noMatchingInput
  | multipleInputs
  | initialTypesLength
  | missingShape
  | badRank
  | unsupportedType (t : ElemType)
deriving Repr, DecidableEq

/-- What a successful prefix of `convert_onnxml` hands to the IR builder
and `linked_node_converter`: the single resolved input, the output names,
and the test data. -/
structure OnnxmlOk where
  input_name : String
  output_names : List String
  test_data : TestDataD
deriving Repr, DecidableEq

/-- `input_names if input_names is not None else [in_.name for in_ in
model.input]`. -/
def resolvedInputNames (model : OnnxModel) (input_names : Option (List String)) :
    List String :=
  input_names.getD (model.input.map (fun i => i.name))

/-- `[in_ for in_ in model.input if in_.name in input_names]`. -/
def resolvedInputs (model : OnnxModel) (input_names : Option (List String)) :
    List ModelInput :=
  model.input.filter (fun i => (resolvedInputNames model input_names).contains i.name)

/-- The test-data synthesis block of `convert_onnxml`: requires shape
information of rank 2, then builds a random array of the declared shape
whose dtype follows the declared element type; only float32 and int32
are recognized. -/
def synthTestData (it : InitialType) : Except OnnxmlError TestDataD :=
  match it.shape with
  | none => .error .missingShape
  | some sh =>
    if sh.length ≠ 2 then .error .badRank
    else
      match it.ty with
      | .float32 => .ok (.synth .float32 sh)
      | .int32 => .ok (.synth .int32 sh)
      | t => .error (.unsupportedType t)

/-- `len(initial_types) == 1` check (vacuous when `initial_types` is
`None`). -/
def initialTypesLenBad (initial_types : Option (List InitialType)) : Bool :=
  match initial_types with
  | some its => its.length != 1
  | none => false

/-- The embedded prefix of `convert_onnxml(model, ..., initial_types,
input_names, output_names, test_data, ...)` from `convert.py`: the eager
precondition on `test_data`/`initial_types`, input-name resolution to
exactly one input, the `initial_types` length check, output-name
defaulting, and test-data synthesis — everything up to the hand-off to
`LinkedNode.build_from_onnx`. -/
def convert_onnxml (model : OnnxModel) (initial_types : Option (List InitialType))
    (input_names : Option (List String)) (output_names : Option (List String))
    (test_data : Option Unit) : Except OnnxmlError OnnxmlOk :=
  if test_data.isNone && initial_types.isNone then .error .missingTestInput
  else
    match resolvedInputs model input_names with
    | [] => .error .noMatchingInput
    | [single] =>
      if initialTypesLenBad initial_types then .error .initialTypesLength
      else
        let outs := output_names.getD model.output
        match test_data with
        | some _ => .ok ⟨single.name, outs, .given⟩
        | none =>
          match initial_types with
          | some (it :: _) =>
            (match synthTestData it with
             | .ok td => .ok ⟨single.name, outs, td⟩
             | .error e => .error e)
          | _ => .error .missingTestInput
    | _ => .error .multipleInputs

/-! ## Concrete example inputs -/

/-- Scenario A: a binary linear classifier with coefficients
`[1, 2, -1, -2]`, intercepts `[0.5, -0.5]` and classes `[0, 1]`. -/
def exBinaryOp : Operator :=
  ⟨⟨⟨[⟨"coefficients", [1, 2, -1, -2], [], 0, []⟩,
      ⟨"intercepts", [1/2, -1/2], [], 0, []⟩,
      ⟨"classlabels_ints", [], [0, 1], 0, []⟩]⟩, "LinearClassifier"⟩⟩

/-- The fragment scenario A must produce: coefficients `[[-1], [-2]]`,
intercepts `[[-0.5]]`. -/
def exBinaryFrag : LinearModel :=
  ⟨.mat [[-1], [-2]], .mat [[-1/2]], none, [0, 1], "none", false⟩

/-- Scenario B: a 3-class linear classifier with coefficients `1..9`. -/
def exMulOp : Operator :=
  ⟨⟨⟨[⟨"coefficients", [1, 2, 3, 4, 5, 6, 7, 8, 9], [], 0, []⟩,
      ⟨"intercepts", [10, 20, 30], [], 0, []⟩,
      ⟨"classlabels_ints", [], [0, 1, 2], 0, []⟩]⟩, "LinearClassifier"⟩⟩

/-- The fragment scenario B produces: the `(3, 3)` transposed coefficient
tensor and untouched intercepts. -/
def exMulFrag : LinearModel :=
  ⟨.mat [[1, 4, 7], [2, 5, 8], [3, 6, 9]], .vec [10, 20, 30],
   none, [0, 1, 2], "ovr", false⟩

/-- A binary classifier carrying an explicit non-zero `multi_class`
attribute. -/
def exModeOp : Operator :=
  ⟨⟨⟨[⟨"coefficients", [1, 2, -1, -2], [], 0, []⟩,
      ⟨"intercepts", [1/2, -1/2], [], 0, []⟩,
      ⟨"classlabels_ints", [], [0, 1], 0, []⟩,
      ⟨"multi_class", [], [], 1, []⟩]⟩, "LinearClassifier"⟩⟩

/-- The fragment `exModeOp` produces, with mode "multinomial". -/
def exModeFrag : LinearModel :=
  ⟨.mat [[-1], [-2]], .mat [[-1/2]], none, [0, 1], "multinomial", false⟩

/-- An operator whose attribute list has no `intercepts` attribute. -/
def exMissingOp : Operator :=
  ⟨⟨⟨[⟨"coefficients", [1, 2], [], 0, []⟩,
      ⟨"classlabels_ints", [], [0, 1], 0, []⟩]⟩, "LinearClassifier"⟩⟩

/-- An operator whose `classlabels_ints` attribute holds a single class. -/
def exOneClassOp : Operator :=
  ⟨⟨⟨[⟨"coefficients", [1, 2], [], 0, []⟩,
      ⟨"intercepts", [3], [], 0, []⟩,
      ⟨"classlabels_ints", [], [0], 0, []⟩]⟩, "LinearClassifier"⟩⟩

/-- An operator declaring its class labels as strings
(`classlabels_strings`) rather than through `classlabels_ints`. -/
def exStrOp : Operator :=
  ⟨⟨⟨[⟨"coefficients", [1, 2, -1, -2], [], 0, []⟩,
      ⟨"intercepts", [1/2, -1/2], [], 0, []⟩,
      ⟨"classlabels_strings", [], [], 0, ["yes", "no"]⟩]⟩, "LinearClassifier"⟩⟩

/-- Scenario D: an ONNX model with two declared inputs. -/
def exTwoInputModel : OnnxModel := ⟨[⟨"a"⟩, ⟨"b"⟩], ["out"]⟩

/-- An ONNX model with a single declared input. -/
def exOneInputModel : OnnxModel := ⟨[⟨"a"⟩], ["out"]⟩

/-! ## Helper lemmas on the attribute walk -/

theorem parseStep_multi_class (s : ParsedAttrs) (a : AttributeProto) :
    (parseStep s a).multi_class =
      if a.name = "multi_class" ∧ a.i ≠ 0 then some "multinomial" else s.multi_class := by
  unfold parseStep
  split_ifs with h1 h2 h3 h4 h5 <;> simp_all

theorem foldl_parseStep_multi_class (attrs : List AttributeProto) (s : ParsedAttrs) :
    (attrs.foldl parseStep s).multi_class =
      if ∃ a ∈ attrs, a.name = "multi_class" ∧ a.i ≠ 0 then some "multinomial"
      else s.multi_class := by
  induction attrs generalizing s with
  | nil => simp
  | cons a l ih =>
    rw [List.foldl_cons, ih, parseStep_multi_class]
    by_cases hl : ∃ b ∈ l, b.name = "multi_class" ∧ b.i ≠ 0
    · simp [hl]
    · rw [if_neg hl]
      by_cases ha : a.name = "multi_class" ∧ a.i ≠ 0
      · rw [if_pos ha, if_pos]
        exact ⟨a, List.mem_cons_self a l, ha⟩
      · rw [if_neg ha, if_neg]
        intro hcon
        rcases hcon with ⟨b, hb, hP⟩
        rcases List.mem_cons.mp hb with rfl | hbl
        · exact ha hP
        · exact hl ⟨b, hbl, hP⟩

theorem parseStep_coefficients (s : ParsedAttrs) (a : AttributeProto)
    (h : a.name ≠ "coefficients") :
    (parseStep s a).coefficients = s.coefficients := by
  unfold parseStep
  split_ifs <;> simp_all

theorem parseStep_intercepts (s : ParsedAttrs) (a : AttributeProto)
    (h : a.name ≠ "intercepts") :
    (parseStep s a).intercepts = s.intercepts := by
  unfold parseStep
  split_ifs <;> simp_all

theorem parseStep_classes (s : ParsedAttrs) (a : AttributeProto)
    (h : a.name ≠ "classlabels_ints") :
    (parseStep s a).classes = s.classes := by
  unfold parseStep
  split_ifs <;> simp_all

theorem foldl_parseStep_no_coefficients (attrs : List AttributeProto) (s : ParsedAttrs)
    (h : ∀ a ∈ attrs, a.name ≠ "coefficients") :
    (attrs.foldl parseStep s).coefficients = s.coefficients := by
  induction attrs generalizing s with
  | nil => rfl
  | cons a l ih =>
    rw [List.foldl_cons, ih _ (fun b hb => h b (List.mem_cons_of_mem a hb)),
      parseStep_coefficients _ _ (h a (List.mem_cons_self a l))]

theorem foldl_parseStep_no_intercepts (attrs : List AttributeProto) (s : ParsedAttrs)
    (h : ∀ a ∈ attrs, a.name ≠ "intercepts") :
    (attrs.foldl parseStep s).intercepts = s.intercepts := by
  induction attrs generalizing s with
  | nil => rfl
  | cons a l ih =>
    rw [List.foldl_cons, ih _ (fun b hb => h b (List.mem_cons_of_mem a hb)),
      parseStep_intercepts _ _ (h a (List.mem_cons_self a l))]

theorem foldl_parseStep_no_classes (attrs : List AttributeProto) (s : ParsedAttrs)
    (h : ∀ a ∈ attrs, a.name ≠ "classlabels_ints") :
    (attrs.foldl parseStep s).classes = s.classes := by
  induction attrs generalizing s with
  | nil => rfl
  | cons a l ih =>
    rw [List.foldl_cons, ih _ (fun b hb => h b (List.mem_cons_of_mem a hb)),
      parseStep_classes _ _ (h a (List.mem_cons_self a l))]

/-! ## Claims -/

/-- C1: for a binary linear classifier (exactly 2 classes) whose
coefficient and intercept attributes are flat arrays of even length,
`convert_onnx_linear_model` returns a fragment whose coefficient tensor is
the second half of the raw coefficients reshaped to one single-scalar row
per value (shape `(k, 1)`), and likewise for the intercepts. -/
theorem linear_binary_keeps_second_half
    (op : Operator) (device : Option String) (cfg : List (String × String))
    (cs ts : List ℚ) (cl : List Int) (k j : Nat) (frag : LinearModel)
    (hc : (parseAttrs op.raw_operator.origin.attrs).coefficients = some cs)
    (hi : (parseAttrs op.raw_operator.origin.attrs).intercepts = some ts)
    (hl : (parseAttrs op.raw_operator.origin.attrs).classes = some cl)
    (h2 : cl.length = 2)
    (hk : cs.length = 2 * k) (hj : ts.length = 2 * j)
    (hok : convert_onnx_linear_model op device cfg = .ok frag) :
    frag.coefficients = .mat ((cs.drop k).map fun v => [v]) ∧
    frag.intercepts = .mat ((ts.drop j).map fun v => [v]) ∧
    ((cs.drop k).map fun v => [v]).length = k ∧
    ((ts.drop j).map fun v => [v]).length = j := by
  have hk2 : cs.length / 2 = k := by omega
  have hj2 : ts.length / 2 = j := by omega
  simp only [convert_onnx_linear_model, hc, hi, hl] at hok
  rw [if_pos h2] at hok
  injection hok with h
  subst h
  refine ⟨?_, ?_, ?_, ?_⟩
  · simp [binaryHalf, hk2]
  · simp [binaryHalf, hj2]
  · simp only [List.length_map, List.length_drop]; omega
  · simp only [List.length_map, List.length_drop]; omega

/-- C1 witness: scenario A, with coefficients `[1, 2, -1, -2]`, intercepts
`[0.5, -0.5]` and classes `[0, 1]`, the fragment's coefficients are
`[[-1], [-2]]` and its intercepts `[[-0.5]]`. -/
theorem linear_binary_keeps_second_half_witness :
    convert_onnx_linear_model exBinaryOp none [] = .ok exBinaryFrag ∧
    exBinaryFrag.coefficients = .mat [[-1], [-2]] ∧
    exBinaryFrag.intercepts = .mat [[-(1 : ℚ)/2]] := by
  have h := linear_binary_keeps_second_half exBinaryOp none []
    [1, 2, -1, -2] [1/2, -1/2] [0, 1] 2 1 exBinaryFrag
    rfl rfl rfl rfl rfl rfl rfl
  exact ⟨rfl, h.1.trans rfl, h.2.1.trans rfl⟩

theorem parseAttrs_multi_class (attrs : List AttributeProto) :
    (parseAttrs attrs).multi_class =
      if ∃ a ∈ attrs, a.name = "multi_class" ∧ a.i ≠ 0 then some "multinomial"
      else none :=
  foldl_parseStep_multi_class attrs ⟨none, none, none, none⟩

/-- C3: every fragment the linear converter returns carries mode
"multinomial" when some explicit `multi_class` attribute with a non-zero
payload is present, and otherwise "none" for fewer than 3 classes and
"ovr" for 3 or more. -/
theorem linear_multi_class_mode
    (op : Operator) (device : Option String) (cfg : List (String × String))
    (frag : LinearModel)
    (hok : convert_onnx_linear_model op device cfg = .ok frag) :
    frag.multi_class =
      if ∃ a ∈ op.raw_operator.origin.attrs, a.name = "multi_class" ∧ a.i ≠ 0
      then "multinomial"
      else if frag.classes.length < 3 then "none" else "ovr" := by
  cases hc : (parseAttrs op.raw_operator.origin.attrs).coefficients with
  | none => simp [convert_onnx_linear_model, hc] at hok
  | some cs =>
  cases hi : (parseAttrs op.raw_operator.origin.attrs).intercepts with
  | none => simp [convert_onnx_linear_model, hc, hi] at hok
  | some ts =>
  cases hl : (parseAttrs op.raw_operator.origin.attrs).classes with
  | none => simp [convert_onnx_linear_model, hc, hi, hl] at hok
  | some cl =>
  simp only [convert_onnx_linear_model, hc, hi, hl] at hok
  by_cases h2 : cl.length = 2
  · rw [if_pos h2] at hok
    injection hok with h
    subst h
    dsimp only
    rw [parseAttrs_multi_class]
    by_cases hex : ∃ a ∈ op.raw_operator.origin.attrs, a.name = "multi_class" ∧ a.i ≠ 0
    · rw [if_pos hex, if_pos hex]
      rfl
    · rw [if_neg hex, if_neg hex]
      rfl
  · rw [if_neg h2] at hok
    by_cases h3 : 2 < cl.length
    · rw [if_pos h3] at hok
      by_cases h4 : cl.length * (cs.length / cl.length) ≠ cs.length
      · rw [if_pos h4] at hok
        exact absurd hok (by simp)
      · rw [if_neg h4] at hok
        injection hok with h
        subst h
        dsimp only
        rw [parseAttrs_multi_class]
        by_cases hex : ∃ a ∈ op.raw_operator.origin.attrs, a.name = "multi_class" ∧ a.i ≠ 0
        · rw [if_pos hex, if_pos hex]
          rfl
        · rw [if_neg hex, if_neg hex]
          rfl
    · rw [if_neg h3] at hok
      exact absurd hok (by simp)

/-- C3 witness: a binary classifier with an explicit non-zero
`multi_class` attribute gets mode "multinomial" despite its 2 classes. -/
theorem linear_multi_class_mode_witness :
    convert_onnx_linear_model exModeOp none [] = .ok exModeFrag ∧
    exModeFrag.multi_class = "multinomial" := by
  have h := linear_multi_class_mode exModeOp none [] exModeFrag rfl
  exact ⟨rfl, h.trans (if_pos (by decide))⟩

/-- C5: when any of the coefficients, intercepts or classes attributes is
absent from the raw attribute list, `convert_onnx_linear_model` raises
the missing-attribute `RuntimeError` and returns no fragment. -/
theorem linear_missing_attribute_fails
    (op : Operator) (device : Option String) (cfg : List (String × String))
    (h : (∀ a ∈ op.raw_operator.origin.attrs, a.name ≠ "coefficients") ∨
         (∀ a ∈ op.raw_operator.origin.attrs, a.name ≠ "intercepts") ∨
         (∀ a ∈ op.raw_operator.origin.attrs, a.name ≠ "classlabels_ints")) :
    convert_onnx_linear_model op device cfg = .error .unexpectedNone := by
  rcases h with h | h | h
  · have hc : (parseAttrs op.raw_operator.origin.attrs).coefficients = none :=
      foldl_parseStep_no_coefficients _ _ h
    cases hi : (parseAttrs op.raw_operator.origin.attrs).intercepts <;>
      cases hl : (parseAttrs op.raw_operator.origin.attrs).classes <;>
        simp [convert_onnx_linear_model, hc, hi, hl]
  · have hi : (parseAttrs op.raw_operator.origin.attrs).intercepts = none :=
      foldl_parseStep_no_intercepts _ _ h
    cases hc : (parseAttrs op.raw_operator.origin.attrs).coefficients <;>
      cases hl : (parseAttrs op.raw_operator.origin.attrs).classes <;>
        simp [convert_onnx_linear_model, hc, hi, hl]
  · have hl : (parseAttrs op.raw_operator.origin.attrs).classes = none :=
      foldl_parseStep_no_classes _ _ h
    cases hc : (parseAttrs op.raw_operator.origin.attrs).coefficients <;>
      cases hi : (parseAttrs op.raw_operator.origin.attrs).intercepts <;>
        simp [convert_onnx_linear_model, hc, hi, hl]

/-- C5 witness: an operator with no `intercepts` attribute fails with the
missing-attribute error. -/
theorem linear_missing_attribute_fails_witness :
    convert_onnx_linear_model exMissingOp none [] = .error .unexpectedNone :=
  linear_missing_attribute_fails exMissingOp none [] (Or.inr (Or.inl (by decide)))

/-- C6: when the classes attribute holds fewer than 2 class labels,
`convert_onnx_linear_model` raises a `RuntimeError` and returns no
fragment. -/
theorem linear_too_few_classes_fails
    (op : Operator) (device : Option String) (cfg : List (String × String))
    (cl : List Int)
    (hl : (parseAttrs op.raw_operator.origin.attrs).classes = some cl)
    (hlen : cl.length < 2) :
    ∃ e, convert_onnx_linear_model op device cfg = .error e := by
  cases hc : (parseAttrs op.raw_operator.origin.attrs).coefficients with
  | none => exact ⟨.unexpectedNone, by simp [convert_onnx_linear_model, hc]⟩
  | some cs =>
  cases hi : (parseAttrs op.raw_operator.origin.attrs).intercepts with
  | none => exact ⟨.unexpectedNone, by simp [convert_onnx_linear_model, hc, hi]⟩
  | some ts =>
  refine ⟨.unexpectedClassesLength cl.length, ?_⟩
  simp only [convert_onnx_linear_model, hc, hi, hl]
  rw [if_neg (by omega), if_neg (by omega)]

/-- C6 witness: a single-class operator fails. -/
theorem linear_too_few_classes_fails_witness :
    ∃ e, convert_onnx_linear_model exOneClassOp none [] = .error e :=
  linear_too_few_classes_fails exOneClassOp none [] [0] rfl (by decide)

/-- C10: class labels are recognized only through `classlabels_ints`:
when no attribute of that name is present, the classes value stays unset
and the conversion fails with the missing-attribute `RuntimeError`, even
for an operator declaring its labels under another name (the witness
carries `classlabels_strings`). -/
theorem linear_requires_int_classlabels
    (op : Operator) (device : Option String) (cfg : List (String × String))
    (h : ∀ a ∈ op.raw_operator.origin.attrs, a.name ≠ "classlabels_ints") :
    (parseAttrs op.raw_operator.origin.attrs).classes = none ∧
    convert_onnx_linear_model op device cfg = .error .unexpectedNone := by
  have hl : (parseAttrs op.raw_operator.origin.attrs).classes = none :=
    foldl_parseStep_no_classes _ _ h
  refine ⟨hl, ?_⟩
  cases hc : (parseAttrs op.raw_operator.origin.attrs).coefficients <;>
    cases hi : (parseAttrs op.raw_operator.origin.attrs).intercepts <;>
      simp [convert_onnx_linear_model, hc, hi, hl]

/-- C10 witness: an operator declaring only string class labels
(`classlabels_strings`) fails with the missing-attribute error. -/
theorem linear_requires_int_classlabels_witness :
    (parseAttrs exStrOp.raw_operator.origin.attrs).classes = none ∧
    convert_onnx_linear_model exStrOp none [] = .error .unexpectedNone :=
  linear_requires_int_classlabels exStrOp none [] (by decide)

theorem map_range_getD (L : List ℚ) :
    (List.range L.length).map (fun j => L.getD j 0) = L := by
  induction L with
  | nil => rfl
  | cons x xs ih =>
    rw [List.length_cons, List.range_succ_eq_map, List.map_cons, List.map_map]
    refine congrArg₂ List.cons rfl ?_
    have hf : ((fun j => (x :: xs).getD j 0) ∘ Nat.succ) = (fun j => xs.getD j 0) := by
      funext j
      exact List.getD_cons_succ
    rw [hf]
    exact ih

theorem foldl_min_const (l : List Nat) (m : Nat) (h : ∀ x ∈ l, x = m) :
    l.foldl Nat.min m = m := by
  induction l with
  | nil => rfl
  | cons x xs ih =>
    rw [List.foldl_cons, h x (List.mem_cons_self x xs), show m.min m = m from Nat.min_self m]
    exact ih (fun y hy => h y (List.mem_cons_of_mem _ hy))

theorem minRowLen_const (rows : List (List ℚ)) (m : Nat)
    (hne : rows ≠ []) (h : ∀ r ∈ rows, r.length = m) :
    minRowLen rows = m := by
  cases rows with
  | nil => exact absurd rfl hne
  | cons r rs =>
    unfold minRowLen
    simp only [List.map_cons]
    rw [h r (List.mem_cons_self r rs)]
    exact foldl_min_const _ _ (fun x hx => by
      rcases List.mem_map.mp hx with ⟨y, hy, rfl⟩
      exact h y (List.mem_cons_of_mem _ hy))

theorem reshapeRows_row_length (c m : Nat) (xs : List ℚ)
    (hm : xs.length = c * m) :
    ∀ r ∈ reshapeRows c m xs, r.length = m := by
  intro r hr
  rcases List.mem_map.mp hr with ⟨i, hi, rfl⟩
  have hic : i < c := List.mem_range.mp hi
  have hb : i * m + m ≤ c * m := by
    calc i * m + m = (i + 1) * m := by ring
    _ ≤ c * m := Nat.mul_le_mul_right m (Nat.succ_le_of_lt hic)
  simp only [List.length_take, List.length_drop, hm]
  omega

/-- C2: for more than 2 classes and a flat coefficient array of length
`c * m`, the fragment keeps the intercepts untouched and its coefficient
tensor is the `(m, c)` matrix whose column `j` is the `j`-th block
`coefficients[j*m : (j+1)*m]` of the flat array. -/
theorem linear_multiclass_transpose
    (op : Operator) (device : Option String) (cfg : List (String × String))
    (cs ts : List ℚ) (cl : List Int) (m : Nat) (frag : LinearModel)
    (hc : (parseAttrs op.raw_operator.origin.attrs).coefficients = some cs)
    (hi : (parseAttrs op.raw_operator.origin.attrs).intercepts = some ts)
    (hl : (parseAttrs op.raw_operator.origin.attrs).classes = some cl)
    (h3 : 2 < cl.length)
    (hm : cs.length = cl.length * m)
    (hok : convert_onnx_linear_model op device cfg = .ok frag) :
    frag.intercepts = .vec ts ∧
    ∃ M, frag.coefficients = .mat M ∧
      M.length = m ∧
      (∀ row ∈ M, row.length = cl.length) ∧
      (∀ jj, jj < cl.length →
        M.map (fun r => r.getD jj 0) = (cs.drop (jj * m)).take m) := by
  have hpos : 0 < cl.length := by omega
  have hmq : cs.length / cl.length = m := by
    rw [hm]
    exact Nat.mul_div_cancel_left m hpos
  simp only [convert_onnx_linear_model, hc, hi, hl] at hok
  rw [if_neg (by omega), if_pos h3, hmq, if_neg (not_not_intro hm.symm)] at hok
  injection hok with h
  subst h
  have hrow : ∀ r ∈ reshapeRows cl.length m cs, r.length = m :=
    reshapeRows_row_length cl.length m cs hm
  have hne : reshapeRows cl.length m cs ≠ [] := by
    intro hcon
    have : (reshapeRows cl.length m cs).length = cl.length := by
      simp [reshapeRows]
    rw [hcon] at this
    simp at this
    omega
  have hmin : minRowLen (reshapeRows cl.length m cs) = m :=
    minRowLen_const _ m hne hrow
  refine ⟨rfl, zipRows (reshapeRows cl.length m cs), rfl, ?_, ?_, ?_⟩
  · simp [zipRows, hmin]
  · intro row hrowm
    rcases List.mem_map.mp hrowm with ⟨j, hj, rfl⟩
    simp [reshapeRows]
  · intro jj hjj
    have hLlen : ((cs.drop (jj * m)).take m).length = m :=
      hrow _ (List.mem_map.mpr ⟨jj, List.mem_range.mpr hjj, rfl⟩)
    rw [zipRows, hmin, List.map_map]
    have hentry : ∀ j : Nat,
        ((reshapeRows cl.length m cs).map (fun r => r.getD j 0)).getD jj 0 =
          ((cs.drop (jj * m)).take m).getD j 0 := by
      intro j
      rw [List.getD_eq_getElem?_getD, List.getElem?_map]
      rw [reshapeRows, List.getElem?_map, List.getElem?_range hjj]
      rfl
    calc (List.range m).map
          ((fun r => r.getD jj 0) ∘ fun j =>
            (reshapeRows cl.length m cs).map fun r => r.getD j 0)
        = (List.range m).map (fun j => ((cs.drop (jj * m)).take m).getD j 0) := by
          refine List.map_congr_left ?_
          intro j _
          exact hentry j
      _ = (cs.drop (jj * m)).take m := by
          have hr : List.range m = List.range ((cs.drop (jj * m)).take m).length := by
            rw [hLlen]
          rw [hr]
          exact map_range_getD _

/-- C2 witness: scenario B, a 3-class classifier with coefficients
`1..9` yields the `(3, 3)` transposed tensor `[[1,4,7],[2,5,8],[3,6,9]]`
and unchanged intercepts. -/
theorem linear_multiclass_transpose_witness :
    convert_onnx_linear_model exMulOp none [] = .ok exMulFrag ∧
    exMulFrag.intercepts = .vec [10, 20, 30] ∧
    exMulFrag.coefficients = .mat [[1, 4, 7], [2, 5, 8], [3, 6, 9]] := by
  have h := linear_multiclass_transpose exMulOp none []
    [1, 2, 3, 4, 5, 6, 7, 8, 9] [10, 20, 30] [0, 1, 2] 3 exMulFrag
    rfl rfl rfl (by decide) rfl rfl
  exact ⟨rfl, h.1, rfl⟩

/-! ## Helper lemmas on the configuration mapping -/

theorem lookupConfig_eq_none (cfg : Config) (k : String)
    (h : containsKey cfg k = false) : lookupConfig cfg k = none := by
  induction cfg with
  | nil => rfl
  | cons p rest ih =>
    simp only [containsKey, List.any_cons, Bool.or_eq_false_iff] at h
    unfold lookupConfig
    rw [if_neg (by simpa using h.1)]
    exact ih h.2

theorem lookupConfig_isSome_of_containsKey (cfg : Config) (k : String)
    (h : containsKey cfg k = true) : ∃ n, lookupConfig cfg k = some n := by
  induction cfg with
  | nil => simp [containsKey] at h
  | cons p rest ih =>
    by_cases hp : p.1 = k
    · exact ⟨p.2, by unfold lookupConfig; rw [if_pos hp]⟩
    · have hr : containsKey rest k = true := by
        simp only [containsKey, List.any_cons] at h ⊢
        simpa [hp] using h
      rcases ih hr with ⟨n, hn⟩
      exact ⟨n, by unfold lookupConfig; rw [if_neg hp]; exact hn⟩

theorem lookupConfig_append (l1 l2 : Config) (k : String) :
    lookupConfig (l1 ++ l2) k =
      match lookupConfig l1 k with
      | some n => some n
      | none => lookupConfig l2 k := by
  induction l1 with
  | nil => rfl
  | cons p rest ih =>
    by_cases hp : p.1 = k <;> simp [lookupConfig, hp, ih]

theorem lookupConfig_insert_self (cfg : Config) (k : String) (v : Nat)
    (h : containsKey cfg k = false) :
    lookupConfig (insertConfig cfg k v) k = some v := by
  rw [insertConfig, lookupConfig_append, lookupConfig_eq_none cfg k h]
  simp [lookupConfig]

theorem lookupConfig_insert_other (cfg : Config) (k k' : String) (v : Nat)
    (h : k' ≠ k) :
    lookupConfig (insertConfig cfg k v) k' = lookupConfig cfg k' := by
  rw [insertConfig, lookupConfig_append]
  cases hl : lookupConfig cfg k' with
  | some n => rfl
  | none =>
    simp only [lookupConfig]
    rw [if_neg (Ne.symm h)]

/-- C7: `convert_xgboost` fails with a feature-count-inference error —
producing no model — exactly when none of the three sources (an
`n_features` entry in `extra_config`, the model's own feature count, a
2-D ndarray `test_input`) is available; when one is, the feature count
follows the priority order and ends up recorded in the configuration. -/
theorem convert_xgboost_feature_count
    (model : XGBoostModel) (ti : TestInput) (cfg : Config) :
    (featureSource model ti cfg = none →
      (convert_xgboost model ti cfg).error.isSome = true) ∧
    (∀ n, featureSource model ti cfg = some n →
      (convert_xgboost model ti cfg).error = none ∧
      lookupConfig (convert_xgboost model ti cfg).extra_config N_FEATURES = some n) := by
  by_cases hk : containsKey cfg N_FEATURES = true
  · rcases lookupConfig_isSome_of_containsKey cfg N_FEATURES hk with ⟨n0, hn0⟩
    have hfs : featureSource model ti cfg = some n0 := by
      simp [featureSource, hn0]
    have hcx : convert_xgboost model ti cfg = ⟨cfg, none⟩ := by
      simp [convert_xgboost, hk]
    rw [hfs, hcx]
    constructor
    · intro h
      exact Option.noConfusion h
    · intro n h
      injection h with hnn
      subst hnn
      exact ⟨rfl, hn0⟩
  · have hkf : containsKey cfg N_FEATURES = false := by simpa using hk
    have hnone := lookupConfig_eq_none cfg N_FEATURES hkf
    cases hm : model.features_count with
    | some n1 =>
      have hfs : featureSource model ti cfg = some n1 := by
        simp [featureSource, hnone, hm]
      have hcx : convert_xgboost model ti cfg = ⟨insertConfig cfg N_FEATURES n1, none⟩ := by
        simp [convert_xgboost, hkf, hm]
      rw [hfs, hcx]
      constructor
      · intro h
        exact Option.noConfusion h
      · intro n h
        injection h with hnn
        subst hnn
        exact ⟨rfl, lookupConfig_insert_self cfg N_FEATURES n1 hkf⟩
    | none =>
      cases ti with
      | ndarray shape =>
        by_cases hs : shape.length = 2
        · have hfs : featureSource model (TestInput.ndarray shape) cfg =
              some (shape.getD 1 0) := by
            simp [featureSource, hnone, hm, hs]
          have hcx : convert_xgboost model (TestInput.ndarray shape) cfg =
              ⟨insertConfig cfg N_FEATURES (shape.getD 1 0), none⟩ := by
            simp [convert_xgboost, hkf, hm, hs]
          rw [hfs, hcx]
          constructor
          · intro h
            exact Option.noConfusion h
          · intro n h
            injection h with hnn
            subst hnn
            exact ⟨rfl, lookupConfig_insert_self cfg N_FEATURES _ hkf⟩
        · have hfs : featureSource model (TestInput.ndarray shape) cfg = none := by
            simp [featureSource, hnone, hm, hs]
          have hcx : convert_xgboost model (TestInput.ndarray shape) cfg =
              ⟨cfg, some .notNdarray⟩ := by
            simp [convert_xgboost, hkf, hm, hs]
          rw [hfs, hcx]
          exact ⟨fun _ => rfl, fun n h => Option.noConfusion h⟩
      | otherData =>
        have hfs : featureSource model TestInput.otherData cfg = none := by
          simp [featureSource, hnone, hm]
        have hcx : convert_xgboost model TestInput.otherData cfg =
            ⟨cfg, some .notNdarray⟩ := by
          simp [convert_xgboost, hkf, hm]
        rw [hfs, hcx]
        exact ⟨fun _ => rfl, fun n h => Option.noConfusion h⟩
      | noInput =>
        have hfs : featureSource model TestInput.noInput cfg = none := by
          simp [featureSource, hnone, hm]
        have hcx : convert_xgboost model TestInput.noInput cfg =
            ⟨cfg, some .noTestInput⟩ := by
          simp [convert_xgboost, hkf, hm]
        rw [hfs, hcx]
        exact ⟨fun _ => rfl, fun n h => Option.noConfusion h⟩

/-- C7 witness: with no `n_features` entry, no model-reported count and
no test input the call fails; with a 2-D ndarray of second dimension 7
it proceeds and records `n_features = 7`. -/
theorem convert_xgboost_feature_count_witness :
    (convert_xgboost ⟨none⟩ .noInput []).error.isSome = true ∧
    (convert_xgboost ⟨none⟩ (.ndarray [10, 7]) []).error = none ∧
    lookupConfig (convert_xgboost ⟨none⟩ (.ndarray [10, 7]) []).extra_config
      N_FEATURES = some 7 := by
  have h1 := (convert_xgboost_feature_count ⟨none⟩ .noInput []).1 (by decide)
  have h2 := (convert_xgboost_feature_count ⟨none⟩ (.ndarray [10, 7]) []).2 7 (by decide)
  exact ⟨h1, h2.1, h2.2⟩

/-- C4 counterexample: `convert_xgboost` does NOT leave the caller's
`extra_config` mapping unchanged — starting from an empty mapping and a
model reporting 5 features, the mapping gains an `n_features` entry. -/
theorem convert_xgboost_mutates_extra_config :
    (convert_xgboost ⟨some 5⟩ .noInput []).extra_config ≠ [] := by decide

/-- C4 (amended): `convert_xgboost` threads `extra_config` through
unchanged except that it may insert the `n_features` key when absent:
every other key keeps its binding, a mapping that already holds
`n_features` is returned untouched, and a failing call leaves the
mapping untouched. -/
theorem convert_xgboost_config_frame
    (model : XGBoostModel) (ti : TestInput) (cfg : Config) :
    (∀ k, k ≠ N_FEATURES →
      lookupConfig (convert_xgboost model ti cfg).extra_config k = lookupConfig cfg k) ∧
    (containsKey cfg N_FEATURES = true →
      (convert_xgboost model ti cfg).extra_config = cfg) ∧
    ((convert_xgboost model ti cfg).error.isSome = true →
      (convert_xgboost model ti cfg).extra_config = cfg) := by
  by_cases hk : containsKey cfg N_FEATURES = true
  · have hcx : convert_xgboost model ti cfg = ⟨cfg, none⟩ := by
      simp [convert_xgboost, hk]
    rw [hcx]
    exact ⟨fun k _ => rfl, fun _ => rfl, fun _ => rfl⟩
  · have hkf : containsKey cfg N_FEATURES = false := by simpa using hk
    cases hm : model.features_count with
    | some n1 =>
      have hcx : convert_xgboost model ti cfg = ⟨insertConfig cfg N_FEATURES n1, none⟩ := by
        simp [convert_xgboost, hkf, hm]
      rw [hcx]
      refine ⟨fun k hne => lookupConfig_insert_other cfg N_FEATURES k n1 hne, ?_, ?_⟩
      · intro h
        rw [hkf] at h
        exact Bool.noConfusion h
      · intro h
        exact Bool.noConfusion h
    | none =>
      cases ti with
      | ndarray shape =>
        by_cases hs : shape.length = 2
        · have hcx : convert_xgboost model (TestInput.ndarray shape) cfg =
              ⟨insertConfig cfg N_FEATURES (shape.getD 1 0), none⟩ := by
            simp [convert_xgboost, hkf, hm, hs]
          rw [hcx]
          refine ⟨fun k hne => lookupConfig_insert_other cfg N_FEATURES k _ hne, ?_, ?_⟩
          · intro h
            rw [hkf] at h
            exact Bool.noConfusion h
          · intro h
            exact Bool.noConfusion h
        · have hcx : convert_xgboost model (TestInput.ndarray shape) cfg =
              ⟨cfg, some .notNdarray⟩ := by
            simp [convert_xgboost, hkf, hm, hs]
          rw [hcx]
          exact ⟨fun k _ => rfl, fun _ => rfl, fun _ => rfl⟩
      | otherData =>
        have hcx : convert_xgboost model TestInput.otherData cfg =
            ⟨cfg, some .notNdarray⟩ := by
          simp [convert_xgboost, hkf, hm]
        rw [hcx]
        exact ⟨fun k _ => rfl, fun _ => rfl, fun _ => rfl⟩
      | noInput =>
        have hcx : convert_xgboost model TestInput.noInput cfg =
            ⟨cfg, some .noTestInput⟩ := by
          simp [convert_xgboost, hkf, hm]
        rw [hcx]
        exact ⟨fun k _ => rfl, fun _ => rfl, fun _ => rfl⟩

/-- C4 (amended) witness: a pre-existing binding survives the call that
inserts `n_features`. -/
theorem convert_xgboost_config_frame_witness :
    lookupConfig (convert_xgboost ⟨some 5⟩ .noInput [("alpha", 9)]).extra_config
      "alpha" = some 9 := by
  have h := (convert_xgboost_config_frame ⟨some 5⟩ .noInput [("alpha", 9)]).1
    "alpha" (by decide)
  exact h.trans (by decide)

/-- C8: in any `convert_onnxml` call that satisfies the entry's eager
`test_data`-or-`initial_types` precondition, resolving the input names to
two or more model inputs fails with the more-than-one-input error before
any IR is built or any model is produced. -/
theorem convert_onnxml_multiple_inputs
    (model : OnnxModel) (initial_types : Option (List InitialType))
    (input_names output_names : Option (List String)) (test_data : Option Unit)
    (hdata : test_data.isSome = true ∨ initial_types.isSome = true)
    (hmulti : 2 ≤ (resolvedInputs model input_names).length) :
    convert_onnxml model initial_types input_names output_names test_data =
      .error .multipleInputs := by
  have hcond : (test_data.isNone && initial_types.isNone) = false := by
    rcases hdata with h | h
    · rcases Option.isSome_iff_exists.mp h with ⟨u, rfl⟩
      rfl
    · rcases Option.isSome_iff_exists.mp h with ⟨its, rfl⟩
      simp
  obtain ⟨a, b, rest2, hres⟩ :
      ∃ a b rest2, resolvedInputs model input_names = a :: b :: rest2 := by
    cases hres : resolvedInputs model input_names with
    | nil =>
      rw [hres] at hmulti
      simp at hmulti
    | cons a rest =>
      cases rest with
      | nil =>
        rw [hres] at hmulti
        simp at hmulti
      | cons b rest2 => exact ⟨a, b, rest2, rfl⟩
  unfold convert_onnxml
  rw [hcond, hres]
  simp

/-- C8 witness: scenario D, a model with two declared inputs (both
resolved by the defaulted input names) fails with the
more-than-one-input error. -/
theorem convert_onnxml_multiple_inputs_witness :
    convert_onnxml exTwoInputModel none none none (some ()) =
      .error .multipleInputs :=
  convert_onnxml_multiple_inputs exTwoInputModel none none none (some ())
    (Or.inl rfl) (by decide)

/-- C9: with `test_data` absent and `initial_types` carrying a rank-2
shape, a call that resolves to a single input synthesizes test data of
the declared shape exactly when the declared element type is float32 or
int32, and fails with the unsupported-type error for any other element
type. -/
theorem convert_onnxml_synth_element_type
    (model : OnnxModel) (input_names output_names : Option (List String))
    (it : InitialType) (single : ModelInput) (sh : List Nat)
    (hres : resolvedInputs model input_names = [single])
    (hsh : it.shape = some sh) (hrank : sh.length = 2) :
    ((it.ty = .float32 ∨ it.ty = .int32) →
      convert_onnxml model (some [it]) input_names output_names none =
        .ok ⟨single.name, output_names.getD model.output, .synth it.ty sh⟩) ∧
    (it.ty ≠ .float32 → it.ty ≠ .int32 →
      convert_onnxml model (some [it]) input_names output_names none =
        .error (.unsupportedType it.ty)) := by
  constructor
  · intro hty
    unfold convert_onnxml
    rw [hres]
    simp only [Option.isNone_none, Option.isNone_some, Bool.true_and,
      Bool.false_eq_true, if_false, initialTypesLenBad, synthTestData, hsh]
    rw [if_neg (by omega : ¬ sh.length ≠ 2)]
    rcases hty with hty | hty <;> rw [hty] <;> simp
  · intro h1 h2
    unfold convert_onnxml
    rw [hres]
    simp only [Option.isNone_none, Option.isNone_some, Bool.true_and,
      Bool.false_eq_true, if_false, initialTypesLenBad, synthTestData, hsh]
    rw [if_neg (by omega : ¬ sh.length ≠ 2)]
    cases hty : it.ty with
    | float32 => exact absurd hty h1
    | int32 => exact absurd hty h2
    | other tag => simp

/-- C9 witness: with a single resolved input and a declared `[1, 20]`
shape, a float32 element type yields synthesized float32 data of that
shape, and an unrecognized element type fails with the unsupported-type
error. -/
theorem convert_onnxml_synth_element_type_witness :
    convert_onnxml exOneInputModel (some [⟨"a", .float32, some [1, 20]⟩])
        none none none =
      .ok ⟨"a", ["out"], .synth .float32 [1, 20]⟩ ∧
    convert_onnxml exOneInputModel (some [⟨"a", .other "double", some [1, 20]⟩])
        none none none =
      .error (.unsupportedType (.other "double")) := by
  constructor
  · exact (convert_onnxml_synth_element_type exOneInputModel none none
      ⟨"a", .float32, some [1, 20]⟩ ⟨"a"⟩ [1, 20] (by decide) rfl rfl).1 (Or.inl rfl)
  · exact (convert_onnxml_synth_element_type exOneInputModel none none
      ⟨"a", .other "double", some [1, 20]⟩ ⟨"a"⟩ [1, 20] (by decide) rfl rfl).2
      (by decide) (by decide)

end Hummingbird
